import Mathlib

/- A shallow embedding of the aspiration callback-injection library
(TypeScript).  Source artefacts modelled:

- src/Callbacks.ts : the multi-handler named-hook dispatcher — class
  Callbacks (fields callbacks/self/args, method exec), the module-level
  stack with pushCallbacks/popCallbacks, getCallbacks and exec.
- src/lib/host.ts : the host-method wrapper `_host` together with
  `_setDefaultCallbacks` (explicit-map / default-map resolution, the
  paramsMemo argument seeding and restore, and the `this[symbols.cbs]`
  active-context memo).
- the setCallbackMap / instance-scoped getCallbacks helpers of the
  companion module (admin.callbackMap installation, `host[symbols.cbs]`
  lookup).

JavaScript values are modelled by `Val` (undefined, numbers, strings and
opaque function values).  JavaScript objects used as string-keyed records
are modelled by association lists with JS assignment semantics (`setA`
overwrites an existing key in place, otherwise appends; `getF` reads a
missing key as undefined).  Handlers are modelled as already-bound pure
functions from the argument list to a value; the `self` receiver binding
of the source is opaque to every property proved here and is omitted. -/

inductive Val where
  | undef : Val
  | num : Int → Val
  | str : String → Val
  | fn : Nat → Val
deriving DecidableEq, Repr

/-- Read a property of a string-keyed JS object (association list). -/
def getA {α : Type} : List (String × α) → String → Option α
  | [], _ => none
  | (k, v) :: t, k2 => if k = k2 then some v else getA t k2

/-- Assign a property of a string-keyed JS object: overwrite in place when
the key exists, append otherwise. -/
def setA {α : Type} : List (String × α) → String → α → List (String × α)
  | [], k, v => [(k, v)]
  | (k2, v2) :: t, k, v => if k2 = k then (k, v) :: t else (k2, v2) :: setA t k v

/-- Read a `Val`-valued property; a missing key reads as JS undefined. -/
def getF (o : List (String × Val)) (k : String) : Val := (getA o k).getD Val.undef

theorem getA_setA_self {α : Type} (o : List (String × α)) (k : String) (v : α) :
    getA (setA o k v) k = some v := by
  induction o with
  | nil => simp [getA, setA]
  | cons hd t ih =>
    obtain ⟨k2, v2⟩ := hd
    by_cases hk : k2 = k
    · simp [setA, hk, getA]
    · simp [setA, hk, getA, ih]

theorem getA_setA_ne {α : Type} (o : List (String × α)) (k k2 : String) (v : α)
    (h : k2 ≠ k) : getA (setA o k2 v) k = getA o k := by
  induction o with
  | nil => simp [getA, setA, h]
  | cons hd t ih =>
    obtain ⟨k3, v3⟩ := hd
    by_cases hk : k3 = k2
    · subst hk
      simp [setA, getA, h]
    · simp [setA, hk, getA, ih]

theorem getF_setA_self (o : List (String × Val)) (k : String) (v : Val) :
    getF (setA o k v) k = v := by
  simp [getF, getA_setA_self]

theorem getF_setA_ne (o : List (String × Val)) (k k2 : String) (v : Val)
    (h : k2 ≠ k) : getF (setA o k2 v) k = getF o k := by
  simp [getF, getA_setA_ne _ _ _ _ h]

/- ===== src/Callbacks.ts : the named-hook dispatcher ===== -/

/-- A registered handler: either a plain function (label `none`, the
source's unlabelled case) or a `\x7b label, func \x7d` pair. -/
structure Handler where
  label : Option String
  func : List Val → Val

/-- The source reads the label of a plain function as `""` and compares it
with `"ret"`; an entry is return-labelled exactly when its label is the
string "ret". -/
def isRet (h : Handler) : Bool := h.label == some "ret"

/-- One step of the forEach body of Callbacks.exec: the update applied to
the mutable pair (result, hasResult) after computing localResult. -/
def stepResult (localResult result : Val) (hasResult retLabelled : Bool) :
    Val × Bool :=
  if retLabelled then (localResult, true)
  else if hasResult then (result, hasResult)
  else (localResult, hasResult)

/-- The forEach loop of Callbacks.exec.  Returns the list of each handler's
computed result in registration order (the execution trace) together with
the final value of the mutable `result` variable. -/
def runHandlers (args : List Val) : List Handler → Val → Bool → List Val × Val
  | [], result, _ => ([], result)
  | h :: t, result, hasResult =>
    let localResult := h.func args
    let st := stepResult localResult result hasResult (isRet h)
    let rest := runHandlers args t st.1 st.2
    (localResult :: rest.1, rest.2)

/-- The Callbacks class of src/Callbacks.ts.  `callbacks` is the
FunctionMap (hook name to handler array), `args` the call arguments stored
by the constructor.  The `self` receiver is opaque here because handlers
are modelled as already-bound functions. -/
structure Callbacks where
  callbacks : List (String × List Handler)
  args : List Val

/-- Callbacks.exec: look up the handler array for `label`; when the entry
is undefined, throw "Callback not found" unless options.optional is
truthy (then return undefined); otherwise run every handler in order.
The returned pair is (execution trace, return value). -/
def Callbacks.exec (c : Callbacks) (label : String) (opt : Bool) :
    Except String (List Val × Val) :=
  match getA c.callbacks label with
  | none =>
    if opt then Except.ok ([], Val.undef)
    else Except.error ("Callback not found: " ++ label)
  | some hs => Except.ok (runHandlers c.args hs Val.undef false)

/-- Callbacks.enter: exec "enter" with the optional flag. -/
def Callbacks.enter (c : Callbacks) : Except String (List Val × Val) :=
  c.exec "enter" true

/-- Callbacks.exit: exec "exit" with the optional flag. -/
def Callbacks.exit (c : Callbacks) : Except String (List Val × Val) :=
  c.exec "exit" true

/-- pushCallbacks: JS Array.push appends at the end. -/
def pushCallbacks (stack : List Callbacks) (x : Callbacks) : List Callbacks :=
  stack ++ [x]

/-- popCallbacks: JS Array.pop removes the last element. -/
def popCallbacks (stack : List Callbacks) : List Callbacks :=
  stack.dropLast

/-- getCallbacks of src/Callbacks.ts: reads stack[stack.length - 1] and
throws "No callbacks" when it (or its callbacks field) is falsy — for a
stack of constructed Callbacks objects that is exactly the empty-stack
case. -/
def getCallbacks (stack : List Callbacks) : Except String Callbacks :=
  match stack.getLast? with
  | none => Except.error "No callbacks"
  | some c => Except.ok c

/-- The module-level exec of src/Callbacks.ts.  With an undefined label the
source calls `callbacks.flush()`, but the Callbacks class declares no
flush member, so that call throws a TypeError at run time; the model
surfaces it as that error. -/
def exec (stack : List Callbacks) (label : Option String) (opt : Bool) :
    Except String (List Val × Val) :=
  match getCallbacks stack with
  | Except.error e => Except.error e
  | Except.ok c =>
    match label with
    | none => Except.error "TypeError: callbacks.flush is not a function"
    | some l => c.exec l opt

/- ===== Claims C5 and C10: missing-hook behaviour of Callbacks.exec ===== -/

/-- C5: for every trigger of a hook name with no registered handlers (no
entry at all in the callback map, i.e. an unregistered hook): without the
optional flag a missing-callback error identifying the hook name is
raised synchronously; with the optional flag the trigger returns
undefined and raises nothing. -/
theorem c5_missing_hook (c : Callbacks) (label : String)
    (h : getA c.callbacks label = none) :
    Callbacks.exec c label false = Except.error ("Callback not found: " ++ label)
    ∧ Callbacks.exec c label true = Except.ok ([], Val.undef) := by
  constructor <;> simp [Callbacks.exec, h]

def cbsEmpty : Callbacks := ⟨[], []⟩

/-- Witness for C5 at a concrete unregistered hook name. -/
theorem c5_witness :
    getA cbsEmpty.callbacks "validate" = none
    ∧ (Callbacks.exec cbsEmpty "validate" false
        = Except.error ("Callback not found: " ++ "validate")
      ∧ Callbacks.exec cbsEmpty "validate" true = Except.ok ([], Val.undef)) :=
  ⟨rfl, c5_missing_hook cbsEmpty "validate" rfl⟩

/-- C10: a hook name registered with an empty handler array is not
"undefined" in the map, so the missing-callback check does not fire even
without the optional flag; the forEach runs zero handlers and the trigger
returns undefined. -/
theorem c10_empty_handler_list (c : Callbacks) (label : String)
    (h : getA c.callbacks label = some []) :
    Callbacks.exec c label false = Except.ok ([], Val.undef) := by
  simp [Callbacks.exec, h, runHandlers]

def cbsEmptyEntry : Callbacks := ⟨[("h", [])], []⟩

/-- Witness for C10 at a concrete empty-entry hook. -/
theorem c10_witness :
    getA cbsEmptyEntry.callbacks "h" = some []
    ∧ Callbacks.exec cbsEmptyEntry "h" false = Except.ok ([], Val.undef) :=
  ⟨rfl, c10_empty_handler_list cbsEmptyEntry "h" rfl⟩

/- ===== Claim C4: execution order and return-value policy ===== -/

/-- The result of the last handler labelled "ret", when any handler
carries that label. -/
def lastRetVal (args : List Val) : List Handler → Option Val
  | [] => none
  | h :: t =>
    match lastRetVal args t with
    | some v => some v
    | none => if isRet h then some (h.func args) else none

/-- The result of the last handler in the sequence, whatever its label. -/
def lastVal (args : List Val) (hs : List Handler) : Option Val :=
  hs.getLast?.map (fun h => h.func args)

/-- The result of the last unlabelled handler in the sequence. -/
def lastUnlabelledVal (args : List Val) (hs : List Handler) : Option Val :=
  ((hs.filter (fun h => h.label == none)).getLast?).map (fun h => h.func args)

/-- The return value as the claim words it: the result of the last
handler labelled "ret" if any handler carries that label, otherwise the
result of the last unlabelled handler in the sequence. -/
def specReturnPolicy (args : List Val) (hs : List Handler) : Option Val :=
  match lastRetVal args hs with
  | some v => some v
  | none => lastUnlabelledVal args hs

/-- The return value the code computes: the result of the last handler
labelled "ret" if any, otherwise the result of the last handler. -/
def execResultPolicy (args : List Val) (hs : List Handler) : Val :=
  match lastRetVal args hs with
  | some v => v
  | none => (lastVal args hs).getD Val.undef

theorem runHandlers_trace (args : List Val) (hs : List Handler) (r : Val)
    (b : Bool) : (runHandlers args hs r b).1 = hs.map (fun h => h.func args) := by
  induction hs generalizing r b with
  | nil => rfl
  | cons h t ih => simp [runHandlers, ih]

theorem lastRetVal_cons_none (args : List Val) (h : Handler) (t : List Handler)
    (hn : lastRetVal args (h :: t) = none) :
    lastRetVal args t = none ∧ isRet h = false := by
  cases hlt : lastRetVal args t with
  | some v => simp [lastRetVal, hlt] at hn
  | none =>
    refine ⟨rfl, ?_⟩
    by_cases hr : isRet h
    · simp [lastRetVal, hlt, hr] at hn
    · simpa using hr

theorem runHandlers_noRet_true (args : List Val) (t : List Handler) (r : Val)
    (hn : lastRetVal args t = none) : (runHandlers args t r true).2 = r := by
  induction t generalizing r with
  | nil => rfl
  | cons h t2 ih =>
    obtain ⟨hn2, hr⟩ := lastRetVal_cons_none args h t2 hn
    simp [runHandlers, stepResult, hr, ih _ hn2]

theorem runHandlers_lastRet (args : List Val) (hs : List Handler) (v : Val)
    (hv : lastRetVal args hs = some v) :
    ∀ r b, (runHandlers args hs r b).2 = v := by
  induction hs generalizing v with
  | nil => simp [lastRetVal] at hv
  | cons h t ih =>
    intro r b
    cases hlt : lastRetVal args t with
    | some w =>
      have hw : w = v := by simp [lastRetVal, hlt] at hv; exact hv
      subst hw
      simp [runHandlers, ih _ hlt]
    | none =>
      have hr : isRet h = true ∧ h.func args = v := by
        by_cases hr2 : isRet h
        · refine ⟨hr2, ?_⟩
          simp [lastRetVal, hlt, hr2] at hv
          exact hv
        · simp [lastRetVal, hlt, hr2] at hv
      simp [runHandlers, stepResult, hr.1, runHandlers_noRet_true args t _ hlt, hr.2]

theorem runHandlers_noRet_false (args : List Val) (hs : List Handler) (r : Val)
    (hn : lastRetVal args hs = none) (hne : hs ≠ []) :
    (runHandlers args hs r false).2 = (lastVal args hs).getD Val.undef := by
  induction hs generalizing r with
  | nil => exact absurd rfl hne
  | cons h t ih =>
    obtain ⟨hn2, hr⟩ := lastRetVal_cons_none args h t hn
    cases t with
    | nil => simp [runHandlers, stepResult, hr, lastVal]
    | cons h2 t2 =>
      have : (runHandlers args (h2 :: t2) (h.func args) false).2
          = (lastVal args (h2 :: t2)).getD Val.undef := ih _ hn2 (by simp)
      simp only [runHandlers, stepResult, hr, Bool.false_eq_true, if_false]
      simpa [lastVal] using this

/-- C4 (amended): for every trigger of a hook whose registered handler
array is non-empty, every handler executes in registration order (the
trace is exactly the handlers' results in order), and the trigger's
return value is the result of the last handler labelled "ret" if any
handler carries that label, otherwise the result of the last handler in
the sequence, whatever its label. -/
theorem c4_return_policy (c : Callbacks) (label : String) (opt : Bool)
    (hs : List Handler) (hl : getA c.callbacks label = some hs) (hne : hs ≠ []) :
    Callbacks.exec c label opt
      = Except.ok (hs.map (fun h => h.func c.args), execResultPolicy c.args hs) := by
  simp only [Callbacks.exec, hl]
  refine congrArg Except.ok (Prod.ext ?_ ?_)
  · exact runHandlers_trace c.args hs Val.undef false
  · show (runHandlers c.args hs Val.undef false).2 = execResultPolicy c.args hs
    cases hlr : lastRetVal c.args hs with
    | some v => simp [execResultPolicy, hlr, runHandlers_lastRet c.args hs v hlr]
    | none => simp [execResultPolicy, hlr, runHandlers_noRet_false c.args hs _ hlr hne]

def f1C4 : Handler := ⟨none, fun _ => Val.num 1⟩

def f2C4 : Handler := ⟨some "validate", fun _ => Val.num 2⟩

def cbsC4 : Callbacks := ⟨[("h", [f1C4, f2C4])], []⟩

/-- C4 counterexample: no handler is labelled "ret"; the last unlabelled
handler is f1C4 (result 1), as selected by the claim's wording, but exec
returns the result of the last handler f2C4 (result 2), which carries the
label "validate". -/
theorem c4_counterexample :
    Callbacks.exec cbsC4 "h" false
      = Except.ok ([Val.num 1, Val.num 2], Val.num 2)
    ∧ specReturnPolicy cbsC4.args [f1C4, f2C4] = some (Val.num 1)
    ∧ (Val.num 2 : Val) ≠ Val.num 1 :=
  ⟨rfl, rfl, by decide⟩

def g1C4 : Handler := ⟨none, fun _ => Val.num 10⟩

def g2C4 : Handler := ⟨some "ret", fun _ => Val.num 20⟩

def g3C4 : Handler := ⟨none, fun _ => Val.num 30⟩

def cbsC4w : Callbacks := ⟨[("h", [g1C4, g2C4, g3C4])], []⟩

/-- Witness for C4 (amended) on the spec's own example: handlers
[f1 unlabelled, f2 labelled "ret", f3 unlabelled] all run in order and
the trigger returns f2's result. -/
theorem c4_witness :
    Callbacks.exec cbsC4w "h" false
      = Except.ok ([Val.num 10, Val.num 20, Val.num 30], Val.num 20) := by
  have h := c4_return_policy cbsC4w "h" false [g1C4, g2C4, g3C4] rfl
    (List.cons_ne_nil _ _)
  rw [h]
  rfl

/- ===== Claim C8: no lazy post-hook firing exists in the dispatcher ===== -/

def hHandlerC8 : Handler := ⟨none, fun _ => Val.num 1⟩

def postHandlerC8 : Handler := ⟨none, fun _ => Val.num 99⟩

def exitHandlerC8 : Handler := ⟨none, fun _ => Val.num 2⟩

/-- A callback map registering handlers for "h", "h_post" and "exit". -/
def cbsC8 : Callbacks :=
  ⟨[("h", [hHandlerC8]), ("h_post", [postHandlerC8]), ("exit", [exitHandlerC8])], []⟩

/-- The complete handler trace of one wrapped host-method call whose body
triggers the hook "h" once and then returns: the wrapper (the host
variant built on the dispatcher) pushes the Callbacks object, runs the
enter hook, runs the body (which triggers "h" through the ambient exec),
runs the exit hook and pops.  Callbacks.exec contains no handling of
"_post" names, so nothing else ever runs. -/
def c8Trace : Except String (List Val) :=
  let stack := pushCallbacks [] cbsC8
  match Callbacks.enter cbsC8 with
  | Except.error e => Except.error e
  | Except.ok (t1, _) =>
    match exec stack (some "h") false with
    | Except.error e => Except.error e
    | Except.ok (t2, _) =>
      match Callbacks.exit cbsC8 with
      | Except.error e => Except.error e
      | Except.ok (t3, _) => Except.ok (t1 ++ t2 ++ t3)

/-- C8: with handlers registered under "h_post", a call whose body
triggers "h" and then exits runs only the "h" handler (result 1) and the
"exit" handler (result 2); the "h_post" handler (result 99) never fires —
neither before the next trigger nor at exit — because src/Callbacks.ts
contains no post-firing machinery at all (and the flush entry point it
would need is called on the Callbacks class but not defined there). -/
theorem c8_post_never_fires :
    c8Trace = Except.ok [Val.num 1, Val.num 2]
    ∧ Val.num 99 ∉ [Val.num 1, Val.num 2]
    ∧ exec (pushCallbacks [] cbsC8) none false
        = Except.error "TypeError: callbacks.flush is not a function" :=
  ⟨rfl, by decide, rfl⟩

/- ===== src/lib/host.ts and companions: the host-method wrapper ===== -/

namespace Lib

/-- Object identity: CallbackSet objects live in a heap and are referred
to by index, so "the same object" is "the same reference". -/
abbrev Ref := Nat

/-- A CallbackSet object of the lib variant: a JS object whose fields are
the argument-named values together with function-valued hook fields. -/
abbrev CbsObj := List (String × Val)

/-- The per-instance admin record (the side table stored under
symbols.admin) together with the instance's `this[symbols.cbs]` slot and
the heap of allocated CallbackSet objects. -/
structure HostState where
  callbackMap : Option (List (String × Ref))
  defaultCallbackMap : Option (List (String × Ref))
  heap : List CbsObj
  activeCbs : Option Ref
deriving DecidableEq, Repr

/-- Dereference a CallbackSet object. -/
def getObj (heap : List CbsObj) (r : Ref) : CbsObj := heap.getD r []

/-- The optional-chaining lookup `map?.[propertyName]`. -/
def lookupEntry (m : Option (List (String × Ref))) (p : String) : Option Ref :=
  m.bind (fun mm => getA mm p)

/-- `_setDefaultCallbacks` of src/lib/host.ts: ensure defaultCallbackMap
exists and store the freshly created default CallbackSet under the
property name. -/
def _setDefaultCallbacks (s : HostState) (p : String) (r : Ref) : HostState :=
  { s with defaultCallbackMap := some (setA (s.defaultCallbackMap.getD []) p r) }

/-- Lines 16-20 of src/lib/host.ts: resolve the CallbackSet as
`admin.callbackMap?.[p] ?? admin.defaultCallbackMap?.[p] ??
_setDefaultCallbacks(admin, p, createDefaultCbs(this))`.  The returned
Bool records whether the default factory ran (allocating `factory` on the
heap models the object the factory created). -/
def resolveCallbacks (s : HostState) (p : String) (factory : CbsObj) :
    HostState × Ref × Bool :=
  match lookupEntry s.callbackMap p with
  | some r => (s, r, false)
  | none =>
    match lookupEntry s.defaultCallbackMap p with
    | some r => (s, r, false)
    | none =>
      let r := s.heap.length
      let s2 := { s with heap := s.heap ++ [factory] }
      (_setDefaultCallbacks s2 p r, r, true)

/-- The argument-seeding loop of src/lib/host.ts: for each paramName in
order, memoize the current field value in paramsMemo, then overwrite the
field with the corresponding call argument (a missing argument writes
undefined).  Returns (seeded fields, paramsMemo). -/
def seedLoop : List String → List Val → CbsObj → List (String × Val) →
    CbsObj × List (String × Val)
  | [], _, fields, memo => (fields, memo)
  | nm :: pns, args, fields, memo =>
    seedLoop pns args.tail (setA fields nm (args.headD Val.undef))
      (setA memo nm (getF fields nm))

/-- The restore loop of src/lib/host.ts: write each paramName's memoized
value back onto the CallbackSet. -/
def restoreLoop : List String → List (String × Val) → CbsObj → CbsObj
  | [], _, fields => fields
  | nm :: pns, memo, fields => restoreLoop pns memo (setA fields nm (getF memo nm))

/-- Everything the wrapped method does before running client code: the
state as the body sees it, the resolved CallbackSet reference, the
paramsMemo, and the memo of the previous `this[symbols.cbs]`. -/
structure CallState where
  st : HostState
  ref : Ref
  memo : List (String × Val)
  cbsMemo : Option Ref

/-- The prefix of the wrapped method of src/lib/host.ts: resolve the
CallbackSet, seed its argument-named fields (keeping paramsMemo), memo
the previous `this[symbols.cbs]` and set it to the resolved object. -/
def hostPrelude (s : HostState) (p : String) (pn : List String)
    (factory : CbsObj) (args : List Val) : CallState :=
  let res := resolveCallbacks s p factory
  let s1 := res.1
  let r := res.2.1
  let seeded := seedLoop pn args (getObj s1.heap r) []
  let s2 : HostState := { s1 with heap := s1.heap.set r seeded.1 }
  { st := { s2 with activeCbs := some r }, ref := r, memo := seeded.2,
    cbsMemo := s2.activeCbs }

/-- The wrapped method of src/lib/host.ts.  `body` stands for the whole
client-code phase between the wrapper's own steps: the enter hook, the
decorated function f, and the exit hook (the wrapper invokes them in that
order; all three are client code and any of them may throw).  The source
wraps nothing in try/finally, so on a throw the wrapper's restore steps do
not run and the exception propagates to the caller as is; on normal
return the wrapper restores `this[symbols.cbs]` and the memoized
argument fields before returning the body's value. -/
def hostWrapped (s : HostState) (p : String) (pn : List String)
    (factory : CbsObj) (body : HostState → HostState × Except String Val)
    (args : List Val) : HostState × Except String Val :=
  let pre := hostPrelude s p pn factory args
  match body pre.st with
  | (s4, Except.error e) => (s4, Except.error e)
  | (s4, Except.ok v) =>
    let s5 : HostState := { s4 with activeCbs := pre.cbsMemo }
    let restored := restoreLoop pn pre.memo (getObj s5.heap pre.ref)
    ({ s5 with heap := s5.heap.set pre.ref restored }, Except.ok v)

/-- setCallbackMap of the companion module: install the explicit callback
map wholesale and make sure defaultCallbackMap exists. -/
def setCallbackMap (s : HostState) (m : List (String × Ref)) : HostState :=
  { s with callbackMap := some m,
           defaultCallbackMap := some (s.defaultCallbackMap.getD []) }

/-- The instance-scoped getCallbacks of the companion module: it simply
returns `host[symbols.cbs]`, whatever that is — it cannot throw. -/
def getCallbacks (s : HostState) : Option Ref := s.activeCbs

end Lib

/- ===== Lemmas about the wrapper's seeding and restore loops ===== -/

namespace Lib

theorem getObj_set_self (heap : List CbsObj) (r : Ref) (x : CbsObj)
    (h : r < heap.length) : getObj (heap.set r x) r = x := by
  induction heap generalizing r with
  | nil => simp at h
  | cons hd t ih =>
    cases r with
    | zero => rfl
    | succ n => exact ih n (by simpa using h)

theorem getD_append_length (l : List CbsObj) (a : CbsObj) :
    (l ++ [a]).getD l.length [] = a := by
  induction l with
  | nil => rfl
  | cons hd t ih => exact ih

theorem getD_succ_tail (args : List Val) (j : Nat) :
    args.getD (j + 1) Val.undef = args.tail.getD j Val.undef := by
  cases args <;> rfl

theorem headD_eq_getD_zero (args : List Val) :
    args.headD Val.undef = args.getD 0 Val.undef := by
  cases args <;> rfl

theorem seed_fields_notin (pns : List String) (args : List Val) (fields : CbsObj)
    (memo : List (String × Val)) (nm : String) (h : nm ∉ pns) :
    getF (seedLoop pns args fields memo).1 nm = getF fields nm := by
  induction pns generalizing args fields memo with
  | nil => rfl
  | cons hd t ih =>
    simp only [List.mem_cons, not_or] at h
    simp only [seedLoop]
    rw [ih _ _ _ h.2]
    exact getF_setA_ne _ _ _ _ (fun he => h.1 he.symm)

theorem seed_fields_at (pn : List String) (args : List Val) (fields : CbsObj)
    (memo : List (String × Val)) (hnd : pn.Nodup) :
    ∀ i (hi : i < pn.length),
      getF (seedLoop pn args fields memo).1 (pn.get ⟨i, hi⟩)
        = args.getD i Val.undef := by
  induction pn generalizing args fields memo with
  | nil => intro i hi; simp at hi
  | cons hd t ih =>
    intro i hi
    cases i with
    | zero =>
      have hnot : hd ∉ t := (List.nodup_cons.mp hnd).1
      show getF (seedLoop (hd :: t) args fields memo).1 hd = args.getD 0 Val.undef
      simp only [seedLoop]
      rw [seed_fields_notin _ _ _ _ _ hnot, getF_setA_self, headD_eq_getD_zero]
    | succ j =>
      have hnd2 : t.Nodup := (List.nodup_cons.mp hnd).2
      have hj : j < t.length := by simpa using hi
      show getF (seedLoop (hd :: t) args fields memo).1 (t.get ⟨j, hj⟩)
        = args.getD (j + 1) Val.undef
      simp only [seedLoop]
      rw [ih _ _ _ hnd2 j hj, getD_succ_tail]

theorem seed_memo_notin (pns : List String) (args : List Val) (fields : CbsObj)
    (memo : List (String × Val)) (nm : String) (h : nm ∉ pns) :
    getF (seedLoop pns args fields memo).2 nm = getF memo nm := by
  induction pns generalizing args fields memo with
  | nil => rfl
  | cons hd t ih =>
    simp only [List.mem_cons, not_or] at h
    simp only [seedLoop]
    rw [ih _ _ _ h.2]
    exact getF_setA_ne _ _ _ _ (fun he => h.1 he.symm)

theorem seed_memo_at (pn : List String) (args : List Val) (fields : CbsObj)
    (memo : List (String × Val)) (hnd : pn.Nodup) (nm : String) (h : nm ∈ pn) :
    getF (seedLoop pn args fields memo).2 nm = getF fields nm := by
  induction pn generalizing args fields memo with
  | nil => cases h
  | cons hd t ih =>
    rcases List.mem_cons.mp h with he | ht
    · subst he
      have hnot : nm ∉ t := (List.nodup_cons.mp hnd).1
      simp only [seedLoop]
      rw [seed_memo_notin _ _ _ _ _ hnot, getF_setA_self]
    · have hne : nm ≠ hd := by
        intro he
        exact (List.nodup_cons.mp hnd).1 (he ▸ ht)
      simp only [seedLoop]
      rw [ih _ _ _ (List.nodup_cons.mp hnd).2 ht]
      exact getF_setA_ne _ _ _ _ (Ne.symm hne)

theorem restore_notin (pns : List String) (memo : List (String × Val))
    (fields : CbsObj) (nm : String) (h : nm ∉ pns) :
    getF (restoreLoop pns memo fields) nm = getF fields nm := by
  induction pns generalizing fields with
  | nil => rfl
  | cons hd t ih =>
    simp only [List.mem_cons, not_or] at h
    simp only [restoreLoop]
    rw [ih _ h.2]
    exact getF_setA_ne _ _ _ _ (fun he => h.1 he.symm)

theorem restore_at (pn : List String) (memo : List (String × Val))
    (fields : CbsObj) (hnd : pn.Nodup) (nm : String) (h : nm ∈ pn) :
    getF (restoreLoop pn memo fields) nm = getF memo nm := by
  induction pn generalizing fields with
  | nil => cases h
  | cons hd t ih =>
    rcases List.mem_cons.mp h with he | ht
    · subst he
      have hnot : nm ∉ t := (List.nodup_cons.mp hnd).1
      simp only [restoreLoop]
      rw [restore_notin t memo _ nm hnot, getF_setA_self]
    · simp only [restoreLoop]
      exact ih _ (List.nodup_cons.mp hnd).2 ht

theorem resolve_preserves (s : HostState) (p : String) (fac : CbsObj) :
    (resolveCallbacks s p fac).1.activeCbs = s.activeCbs
    ∧ (resolveCallbacks s p fac).1.callbackMap = s.callbackMap := by
  unfold resolveCallbacks
  split
  · exact ⟨rfl, rfl⟩
  · split
    · exact ⟨rfl, rfl⟩
    · exact ⟨rfl, rfl⟩

theorem prelude_ref (s : HostState) (p : String) (pn : List String)
    (fac : CbsObj) (args : List Val) :
    (hostPrelude s p pn fac args).ref = (resolveCallbacks s p fac).2.1 := rfl

theorem prelude_memo (s : HostState) (p : String) (pn : List String)
    (fac : CbsObj) (args : List Val) :
    (hostPrelude s p pn fac args).memo
      = (seedLoop pn args
          (getObj (resolveCallbacks s p fac).1.heap (resolveCallbacks s p fac).2.1)
          []).2 := rfl

theorem prelude_st_heap (s : HostState) (p : String) (pn : List String)
    (fac : CbsObj) (args : List Val) :
    (hostPrelude s p pn fac args).st.heap
      = (resolveCallbacks s p fac).1.heap.set (resolveCallbacks s p fac).2.1
          (seedLoop pn args
            (getObj (resolveCallbacks s p fac).1.heap (resolveCallbacks s p fac).2.1)
            []).1 := rfl

theorem prelude_activeCbs (s : HostState) (p : String) (pn : List String)
    (fac : CbsObj) (args : List Val) :
    (hostPrelude s p pn fac args).st.activeCbs
      = some (hostPrelude s p pn fac args).ref := rfl

theorem prelude_cbsMemo (s : HostState) (p : String) (pn : List String)
    (fac : CbsObj) (args : List Val) :
    (hostPrelude s p pn fac args).cbsMemo = s.activeCbs :=
  (resolve_preserves s p fac).1

theorem hostWrapped_error (s : HostState) (p : String) (pn : List String)
    (fac : CbsObj) (body : HostState → HostState × Except String Val)
    (args : List Val) (s4 : HostState) (e : String)
    (hb : body (hostPrelude s p pn fac args).st = (s4, Except.error e)) :
    hostWrapped s p pn fac body args = (s4, Except.error e) := by
  simp only [hostWrapped, hb]

theorem hostWrapped_ok (s : HostState) (p : String) (pn : List String)
    (fac : CbsObj) (body : HostState → HostState × Except String Val)
    (args : List Val) (s4 : HostState) (v : Val)
    (hb : body (hostPrelude s p pn fac args).st = (s4, Except.ok v)) :
    hostWrapped s p pn fac body args
      = ({ s4 with
            activeCbs := (hostPrelude s p pn fac args).cbsMemo,
            heap := s4.heap.set (hostPrelude s p pn fac args).ref
              (restoreLoop pn (hostPrelude s p pn fac args).memo
                (getObj s4.heap (hostPrelude s p pn fac args).ref)) },
         Except.ok v) := by
  simp only [hostWrapped, hb]

end Lib

/- ===== Claim C2: the default factory runs exactly once ===== -/

/-- C2: on an instance with no explicit entry and no default entry for
the method name, the first call runs the factory (flag true), memoizes
the created CallbackSet in defaultCallbackMap under that name, and the
object resolved is exactly the factory's object; any subsequent call
resolves the very same reference, leaves the state untouched, and does
not run its factory (flag false). -/
theorem c2_default_factory_once (s : Lib.HostState) (p : String) (fac : Lib.CbsObj)
    (hexp : Lib.lookupEntry s.callbackMap p = none)
    (hdef : Lib.lookupEntry s.defaultCallbackMap p = none) :
    (Lib.resolveCallbacks s p fac).2.2 = true
    ∧ Lib.lookupEntry (Lib.resolveCallbacks s p fac).1.defaultCallbackMap p
        = some (Lib.resolveCallbacks s p fac).2.1
    ∧ Lib.getObj (Lib.resolveCallbacks s p fac).1.heap (Lib.resolveCallbacks s p fac).2.1
        = fac
    ∧ ∀ fac2, Lib.resolveCallbacks (Lib.resolveCallbacks s p fac).1 p fac2
        = ((Lib.resolveCallbacks s p fac).1, (Lib.resolveCallbacks s p fac).2.1, false) := by
  have hres : Lib.resolveCallbacks s p fac
      = (Lib._setDefaultCallbacks { s with heap := s.heap ++ [fac] } p s.heap.length,
         s.heap.length, true) := by
    unfold Lib.resolveCallbacks
    rw [hexp, hdef]
  refine ⟨by rw [hres], ?_, ?_, ?_⟩
  · rw [hres]
    simp [Lib.lookupEntry, Lib._setDefaultCallbacks, getA_setA_self]
  · rw [hres]
    exact Lib.getD_append_length s.heap fac
  · intro fac2
    rw [hres]
    have h1 : Lib.lookupEntry
        (Lib._setDefaultCallbacks { s with heap := s.heap ++ [fac] } p
          s.heap.length).callbackMap p = none := hexp
    have h2 : Lib.lookupEntry
        (Lib._setDefaultCallbacks { s with heap := s.heap ++ [fac] } p
          s.heap.length).defaultCallbackMap p = some s.heap.length := by
      simp [Lib.lookupEntry, Lib._setDefaultCallbacks, getA_setA_self]
    unfold Lib.resolveCallbacks
    rw [h1, h2]

def s0C2 : Lib.HostState := ⟨none, none, [], none⟩

def facC2 : Lib.CbsObj := [("selectItem", Val.fn 0)]

/-- Witness for C2 on a fresh instance and the method "selectItem". -/
theorem c2_witness :
    Lib.lookupEntry s0C2.callbackMap "selectItem" = none
    ∧ Lib.lookupEntry s0C2.defaultCallbackMap "selectItem" = none
    ∧ ((Lib.resolveCallbacks s0C2 "selectItem" facC2).2.2 = true
      ∧ Lib.lookupEntry
          (Lib.resolveCallbacks s0C2 "selectItem" facC2).1.defaultCallbackMap
          "selectItem"
        = some (Lib.resolveCallbacks s0C2 "selectItem" facC2).2.1
      ∧ Lib.getObj (Lib.resolveCallbacks s0C2 "selectItem" facC2).1.heap
          (Lib.resolveCallbacks s0C2 "selectItem" facC2).2.1 = facC2
      ∧ ∀ fac2, Lib.resolveCallbacks (Lib.resolveCallbacks s0C2 "selectItem" facC2).1
            "selectItem" fac2
          = ((Lib.resolveCallbacks s0C2 "selectItem" facC2).1,
             (Lib.resolveCallbacks s0C2 "selectItem" facC2).2.1, false)) :=
  ⟨rfl, rfl, c2_default_factory_once s0C2 "selectItem" facC2 rfl rfl⟩

/- ===== Claim C3: explicit map wins, never merged with the default ===== -/

/-- C3: once the explicit callback map is installed with an entry for the
method, every invocation resolves that explicit CallbackSet — even when a
default CallbackSet for the same method was materialized earlier (hd) —
without running the factory and without touching the state; and during
the call every hook name that is not a parameter name reads exactly the
explicit object's own field, so a hook missing from the explicit entry
reads undefined no matter what the default entry holds: the two sets are
never combined. -/
theorem c3_explicit_wins (s0 : Lib.HostState) (mp : List (String × Lib.Ref))
    (p : String) (re rd : Lib.Ref) (pn : List String) (fac : Lib.CbsObj)
    (args : List Val) (hm : getA mp p = some re)
    (_hd : Lib.lookupEntry s0.defaultCallbackMap p = some rd)
    (hre : re < s0.heap.length) :
    Lib.resolveCallbacks (Lib.setCallbackMap s0 mp) p fac
      = (Lib.setCallbackMap s0 mp, re, false)
    ∧ (Lib.hostPrelude (Lib.setCallbackMap s0 mp) p pn fac args).st.activeCbs
        = some re
    ∧ ∀ h, h ∉ pn →
        getF (Lib.getObj
            (Lib.hostPrelude (Lib.setCallbackMap s0 mp) p pn fac args).st.heap re) h
          = getF (Lib.getObj s0.heap re) h := by
  have hres : Lib.resolveCallbacks (Lib.setCallbackMap s0 mp) p fac
      = (Lib.setCallbackMap s0 mp, re, false) := by
    have h1 : Lib.lookupEntry (Lib.setCallbackMap s0 mp).callbackMap p = some re := by
      simp [Lib.setCallbackMap, Lib.lookupEntry, hm]
    unfold Lib.resolveCallbacks
    rw [h1]
  have href : (Lib.hostPrelude (Lib.setCallbackMap s0 mp) p pn fac args).ref = re := by
    rw [Lib.prelude_ref, hres]
  refine ⟨hres, ?_, ?_⟩
  · rw [Lib.prelude_activeCbs, href]
  · intro h hnp
    have hheap : (Lib.hostPrelude (Lib.setCallbackMap s0 mp) p pn fac args).st.heap
        = s0.heap.set re
            (Lib.seedLoop pn args (Lib.getObj s0.heap re) []).1 := by
      rw [Lib.prelude_st_heap, hres]
      rfl
    rw [hheap, Lib.getObj_set_self _ _ _ hre]
    exact Lib.seed_fields_notin pn args _ [] h hnp

def s0C3 : Lib.HostState :=
  ⟨none, some [("m", 1)], [[("hookA", Val.fn 0)], [("hookB", Val.fn 1)]], none⟩

def mpC3 : List (String × Lib.Ref) := [("m", 0)]

def facC3 : Lib.CbsObj := []

/-- Witness for C3: the explicit entry (object 0, which has only "hookA")
wins over the previously materialized default entry (object 1, which has
"hookB"); during the call "hookB" reads undefined on the resolved object
even though the default object defines it. -/
theorem c3_witness :
    getA mpC3 "m" = some 0
    ∧ Lib.lookupEntry s0C3.defaultCallbackMap "m" = some 1
    ∧ 0 < s0C3.heap.length
    ∧ Lib.resolveCallbacks (Lib.setCallbackMap s0C3 mpC3) "m" facC3
        = (Lib.setCallbackMap s0C3 mpC3, 0, false)
    ∧ (Lib.hostPrelude (Lib.setCallbackMap s0C3 mpC3) "m" ["x"] facC3 []).st.activeCbs
        = some 0
    ∧ getF (Lib.getObj
          (Lib.hostPrelude (Lib.setCallbackMap s0C3 mpC3) "m" ["x"] facC3 []).st.heap 0)
        "hookB"
      = getF (Lib.getObj s0C3.heap 0) "hookB"
    ∧ getF (Lib.getObj s0C3.heap 0) "hookB" = Val.undef
    ∧ getF (Lib.getObj s0C3.heap 1) "hookB" = Val.fn 1 := by
  have h := c3_explicit_wins s0C3 mpC3 "m" 0 1 ["x"] facC3 [] rfl rfl (by decide)
  exact ⟨rfl, rfl, by decide, h.1, h.2.1, h.2.2 "hookB" (by decide), by decide, by decide⟩

/- ===== Claim C6: the active context nests LIFO across calls ===== -/

/-- C6: every wrapped call runs its client-code phase (the method body,
with any nested wrapped calls inside it) in a state whose
`this[symbols.cbs]` slot holds this call's own resolved CallbackSet, and
when that phase returns normally the wrapper restores the slot to the
exact value it had before the call.  Instantiated at a nested call (a
wrapped `n` invoked from inside the body of a wrapped `m`, whose
pre-state has the slot at m's CallbackSet), this says: during n's
execution ambient lookup resolves to n's CallbackSet, and after n
returns, it resolves to m's again — the slot behaves as a LIFO stack
restored exactly on unwind. -/
theorem c6_nested_context_lifo (s : Lib.HostState) (p : String) (pn : List String)
    (fac : Lib.CbsObj) (args : List Val)
    (body : Lib.HostState → Lib.HostState × Except String Val)
    (s4 : Lib.HostState) (v : Val)
    (hb : body (Lib.hostPrelude s p pn fac args).st = (s4, Except.ok v)) :
    (Lib.hostPrelude s p pn fac args).st.activeCbs
        = some (Lib.hostPrelude s p pn fac args).ref
    ∧ (Lib.hostWrapped s p pn fac body args).1.activeCbs = s.activeCbs := by
  refine ⟨Lib.prelude_activeCbs s p pn fac args, ?_⟩
  rw [Lib.hostWrapped_ok s p pn fac body args s4 v hb]
  exact Lib.prelude_cbsMemo s p pn fac args

def sC6 : Lib.HostState :=
  ⟨some [("m", 0), ("n", 1)], none, [[("hm", Val.fn 0)], [("hn", Val.fn 1)]], none⟩

/-- The state in which the body of the outer wrapped call `m` runs. -/
def midC6 : Lib.HostState := (Lib.hostPrelude sC6 "m" [] [] []).st

def bodyC6 : Lib.HostState → Lib.HostState × Except String Val :=
  fun st => (st, Except.ok Val.undef)

/-- Witness for C6: from inside m's body (active context = m's object 0),
the nested call to n runs its body with active context = n's object 1,
and after n returns the active context is m's object 0 again. -/
theorem c6_witness :
    midC6.activeCbs = some 0
    ∧ (Lib.hostPrelude midC6 "n" [] [] []).ref = 1
    ∧ bodyC6 (Lib.hostPrelude midC6 "n" [] [] []).st
        = ((Lib.hostPrelude midC6 "n" [] [] []).st, Except.ok Val.undef)
    ∧ ((Lib.hostPrelude midC6 "n" [] [] []).st.activeCbs
          = some (Lib.hostPrelude midC6 "n" [] [] []).ref
      ∧ (Lib.hostWrapped midC6 "n" [] [] bodyC6 []).1.activeCbs = midC6.activeCbs) :=
  ⟨by decide, by decide, rfl, c6_nested_context_lifo midC6 "n" [] [] [] bodyC6 _ _ rfl⟩

/- ===== Claim C7: arguments are visible as fields during the call ===== -/

/-- C7: for every wrapped call with declared paramNames (a method's
declared parameter names are pairwise distinct) and arguments `args`, in
the state the wrapper hands to the client-code phase — the state in which
the enter hook, the method body with every hook it triggers, and the exit
hook all run — the resolved CallbackSet's field named `pn.get i` equals
the i-th argument (undefined when fewer arguments were passed), for every
position i. -/
theorem c7_argument_visibility (s : Lib.HostState) (p : String) (pn : List String)
    (fac : Lib.CbsObj) (args : List Val) (hnd : pn.Nodup)
    (hr : (Lib.resolveCallbacks s p fac).2.1
        < (Lib.resolveCallbacks s p fac).1.heap.length) :
    ∀ i (hi : i < pn.length),
      getF (Lib.getObj (Lib.hostPrelude s p pn fac args).st.heap
              (Lib.hostPrelude s p pn fac args).ref)
          (pn.get ⟨i, hi⟩)
        = args.getD i Val.undef := by
  intro i hi
  rw [Lib.prelude_st_heap, Lib.prelude_ref, Lib.getObj_set_self _ _ _ hr]
  exact Lib.seed_fields_at pn args _ [] hnd i hi

def sC7 : Lib.HostState := ⟨some [("m", 0)], none, [[]], none⟩

/-- Witness for C7: calling m with paramNames ["x", "y"] and arguments
(1, 2) makes cbs.x = 1 and cbs.y = 2 during the call. -/
theorem c7_witness :
    (["x", "y"] : List String).Nodup
    ∧ (Lib.resolveCallbacks sC7 "m" []).2.1
        < (Lib.resolveCallbacks sC7 "m" []).1.heap.length
    ∧ getF (Lib.getObj
          (Lib.hostPrelude sC7 "m" ["x", "y"] [] [Val.num 1, Val.num 2]).st.heap
          (Lib.hostPrelude sC7 "m" ["x", "y"] [] [Val.num 1, Val.num 2]).ref) "x"
        = Val.num 1
    ∧ getF (Lib.getObj
          (Lib.hostPrelude sC7 "m" ["x", "y"] [] [Val.num 1, Val.num 2]).st.heap
          (Lib.hostPrelude sC7 "m" ["x", "y"] [] [Val.num 1, Val.num 2]).ref) "y"
        = Val.num 2 := by
  have h := c7_argument_visibility sC7 "m" ["x", "y"] [] [Val.num 1, Val.num 2]
    (by decide) (by decide)
  exact ⟨by decide, by decide, h 0 (by decide), h 1 (by decide)⟩

/- ===== Claim C1: restore runs on the normal path only ===== -/

def sC1 : Lib.HostState := ⟨some [("m", 0)], none, [[("x", Val.num 7)]], none⟩

def bodyBoomC1 : Lib.HostState → Lib.HostState × Except String Val :=
  fun st => (st, Except.error "boom")

/-- C1 counterexample: a wrapped call of m (paramName "x", prior field
value 7, prior active context none) whose body throws "boom".  The
exception does propagate unchanged to the caller, but neither restore
step runs: afterwards the active context is still m's object (not the
prior none) and the field "x" still holds the call argument 5 (not the
memoized prior 7) — refuting "the restore steps run on every exit path". -/
theorem c1_counterexample :
    (Lib.hostWrapped sC1 "m" ["x"] [] bodyBoomC1 [Val.num 5]).2
        = Except.error "boom"
    ∧ (Lib.hostWrapped sC1 "m" ["x"] [] bodyBoomC1 [Val.num 5]).1.activeCbs = some 0
    ∧ sC1.activeCbs = none
    ∧ getF (Lib.getObj
          (Lib.hostWrapped sC1 "m" ["x"] [] bodyBoomC1 [Val.num 5]).1.heap 0) "x"
        = Val.num 5
    ∧ getF (Lib.getObj sC1.heap 0) "x" = Val.num 7 :=
  ⟨rfl, rfl, rfl, rfl, rfl⟩

/-- C1 (amended): on the normal-return path the wrapper restores the
active context to its prior value and every argument-named field to its
memoized prior value, and returns the body's result unchanged; when the
client-code phase throws, the exception propagates unchanged to the
caller, but — there being no try/finally in the source — the restore
steps do not run at all. -/
theorem c1_restore_on_return (s : Lib.HostState) (p : String) (pn : List String)
    (fac : Lib.CbsObj) (args : List Val)
    (body : Lib.HostState → Lib.HostState × Except String Val) :
    (∀ s4 e, body (Lib.hostPrelude s p pn fac args).st = (s4, Except.error e) →
        Lib.hostWrapped s p pn fac body args = (s4, Except.error e))
    ∧ (∀ s4 v, body (Lib.hostPrelude s p pn fac args).st = (s4, Except.ok v) →
        (Lib.hostWrapped s p pn fac body args).2 = Except.ok v
        ∧ (Lib.hostWrapped s p pn fac body args).1.activeCbs = s.activeCbs
        ∧ (pn.Nodup → (Lib.hostPrelude s p pn fac args).ref < s4.heap.length →
            ∀ nm, nm ∈ pn →
              getF (Lib.getObj (Lib.hostWrapped s p pn fac body args).1.heap
                      (Lib.hostPrelude s p pn fac args).ref) nm
                = getF (Lib.getObj (Lib.resolveCallbacks s p fac).1.heap
                      (Lib.hostPrelude s p pn fac args).ref) nm)) := by
  constructor
  · intro s4 e hb
    exact Lib.hostWrapped_error s p pn fac body args s4 e hb
  · intro s4 v hb
    rw [Lib.hostWrapped_ok s p pn fac body args s4 v hb]
    refine ⟨rfl, Lib.prelude_cbsMemo s p pn fac args, ?_⟩
    intro hnd hr4 nm hnm
    rw [Lib.prelude_ref] at hr4 ⊢
    rw [Lib.getObj_set_self _ _ _ hr4, Lib.restore_at pn _ _ hnd nm hnm,
      Lib.prelude_memo]
    exact Lib.seed_memo_at pn args _ [] hnd nm hnm

def bodyOkC1 : Lib.HostState → Lib.HostState × Except String Val :=
  fun st => (st, Except.ok (Val.num 42))

/-- Witness for C1 (amended) on the normal path: the same call with a
body returning 42 hands back 42, pops the active context to none and
restores the field "x" to its prior value 7. -/
theorem c1_witness :
    bodyOkC1 (Lib.hostPrelude sC1 "m" ["x"] [] [Val.num 5]).st
      = ((Lib.hostPrelude sC1 "m" ["x"] [] [Val.num 5]).st, Except.ok (Val.num 42))
    ∧ (Lib.hostWrapped sC1 "m" ["x"] [] bodyOkC1 [Val.num 5]).2
        = Except.ok (Val.num 42)
    ∧ (Lib.hostWrapped sC1 "m" ["x"] [] bodyOkC1 [Val.num 5]).1.activeCbs = none
    ∧ getF (Lib.getObj
          (Lib.hostWrapped sC1 "m" ["x"] [] bodyOkC1 [Val.num 5]).1.heap 0) "x"
        = Val.num 7 := by
  have h := (c1_restore_on_return sC1 "m" ["x"] [] [Val.num 5] bodyOkC1).2
    (Lib.hostPrelude sC1 "m" ["x"] [] [Val.num 5]).st (Val.num 42) rfl
  refine ⟨rfl, h.1, ?_, ?_⟩
  · rw [h.2.1]
    rfl
  · have h3 := h.2.2 (by decide) (by decide) "x" (by decide)
    exact h3.trans (by decide)

/- ===== Claim C9: ambient lookup outside any active call ===== -/

def freshHost : Lib.HostState := ⟨none, none, [], none⟩

/-- C9 counterexample: the instance-scoped getCallbacks is one of the
ambient lookups the claim covers, yet used outside any active
host-method call (the `this[symbols.cbs]` slot is unset) it raises
nothing — its body is a bare property read and cannot throw — and simply
returns undefined, refuting "a no-active-context error is raised". -/
theorem c9_counterexample :
    freshHost.activeCbs = none ∧ Lib.getCallbacks freshHost = none :=
  ⟨rfl, rfl⟩

/-- C9 (amended): outside any active host-method call, stack-based
ambient lookup (getCallbacks of the dispatcher and every exec built on
it, with any label) raises the "No callbacks" error; the instance-scoped
getCallbacks raises nothing and returns undefined — which is not a
usable context, but not an error either. -/
theorem c9_no_active_context (l : String) (opt : Bool) (s : Lib.HostState)
    (h : s.activeCbs = none) :
    getCallbacks ([] : List Callbacks) = Except.error "No callbacks"
    ∧ exec [] (some l) opt = Except.error "No callbacks"
    ∧ exec [] none opt = Except.error "No callbacks"
    ∧ Lib.getCallbacks s = none :=
  ⟨rfl, rfl, rfl, h⟩

/-- Witness for C9 (amended) at a concrete label and a fresh instance. -/
theorem c9_witness :
    freshHost.activeCbs = none
    ∧ (getCallbacks ([] : List Callbacks) = Except.error "No callbacks"
      ∧ exec [] (some "h") false = Except.error "No callbacks"
      ∧ exec [] none false = Except.error "No callbacks"
      ∧ Lib.getCallbacks freshHost = none) :=
  ⟨rfl, c9_no_active_context "h" false freshHost rfl⟩
